import Mathlib

/-!
Verification of leftwm `src/utils/child_process.rs`.

The module is embedded shallowly: `HashMap<K, V>` becomes an association
list `List (K × V)` manipulated by `mapInsert`/`mapLookup` (a hash map never
holds two entries with the same key, so in-place replacement of the first
occurrence is a faithful model of `HashMap::insert`), I/O effects become
explicit oracle parameters recording what the operating system returned,
and `io::Error` becomes a small inductive of error kinds plus a message.
-/

set_option autoImplicit false

universe u v

/-- Model of `std::io::ErrorKind` (only the kinds this module touches). -/
inductive ErrorKind where
  | notFound
  | permissionDenied
  | invalidInput
  | invalidData
  | other
deriving DecidableEq, Repr

/-- Model of `std::io::Error`: a kind plus the message string. -/
structure IOError where
  kind : ErrorKind
  msg : String
deriving DecidableEq, Repr

/-- Model of `HashMap::insert self k v`: if an entry with key `k` exists it is
replaced in place (a hash map holds at most one entry per key, so replacing the
first occurrence is exact); otherwise the entry is appended. -/
def mapInsert {α : Type u} {β : Type v} [DecidableEq α] :
    List (α × β) → α → β → List (α × β)
  | [], k, v => [(k, v)]
  | p :: rest, k, v =>
    if p.1 = k then (k, v) :: rest else p :: mapInsert rest k v

/-- Model of `HashMap::get self k`: the value of the (unique) entry whose
key is `k`, if any. -/
def mapLookup {α : Type u} {β : Type v} [DecidableEq α] :
    List (α × β) → α → Option β
  | [], _ => none
  | p :: rest, k => if p.1 = k then some p.2 else mapLookup rest k

/-- First-some choice on options, used to state lookup-after-merge results. -/
def optOr {β : Type v} : Option β → Option β → Option β
  | some v, _ => some v
  | none, o => o

/-- Literal embedding of `sanitize_exec`: the Rust function only wraps the raw
`Exec` value in a fixed shell pipeline (command substitution around
`echo "<exec>" | sed 's/%.//' | sed 's/^\"//g' | sed 's/\" *$//g'`). -/
def sanitize_exec (exec : String) : String :=
  "`echo \"" ++ exec ++ "\" | sed 's/%.//' | sed 's/^\\\"//g' | sed 's/\\\" *$//g'`"

/-- Model of the quote-removal the POSIX shell performs on the word
`"<exec>"` before `echo` runs, for `exec` values that contain no backslash,
dollar sign or backtick and whose double quotes do not leave any whitespace
unquoted: every double-quote character is consumed by the shell and the
remaining characters are echoed verbatim. -/
def echoQuoteRemoval (s : List Char) : List Char :=
  s.filter (fun c => c != '"')

/-- Model of `sed 's/%.//'` on one line: the substitution has no `g` flag, so
exactly the first occurrence of `%` followed by any character is deleted;
every later occurrence is kept. A lone `%` at the end of the line does not
match the pattern `%.`. -/
def sedRemoveFirstFieldCode : List Char → List Char
  | [] => []
  | c :: rest =>
    if c = '%' then
      match rest with
      | [] => [c]
      | _ :: rest2 => rest2
    else c :: sedRemoveFirstFieldCode rest

/-- Model of `sed 's/^\"//g'` on one line: the pattern is anchored at the
start of the line, so at most one leading double quote is removed. -/
def sedStripLeadingQuote (s : List Char) : List Char :=
  match s with
  | '"' :: rest => rest
  | _ => s

/-- Model of `sed 's/\" *$//g'` on one line: removes the leftmost double
quote that is followed only by spaces up to the end of the line, together
with those spaces; at most one such match exists per pass. -/
def sedStripTrailingQuote : List Char → List Char
  | [] => []
  | c :: rest =>
    if c = '"' && rest.all (fun x => x == ' ') then []
    else c :: sedStripTrailingQuote rest

/-- The text transformation that the command string returned by
`sanitize_exec` applies to the raw `Exec` value when `sh` executes it:
the shell's quote removal on the `echo` argument, then the three `sed`
filters in pipeline order. -/
def effectiveSanitize (exec : String) : String :=
  String.mk
    (sedStripTrailingQuote
      (sedStripLeadingQuote
        (sedRemoveFirstFieldCode (echoQuoteRemoval exec.toList))))

/-- Model of Rust `str::trim` on the characters this module encounters:
drop whitespace from both ends. -/
def rustTrim (s : String) : List Char :=
  ((s.toList.dropWhile Char.isWhitespace).reverse.dropWhile
    Char.isWhitespace).reverse

/-- The per-line logic of the loop body of `parse_desktop_file`: trim the
line; skip it (`none`) when it is empty or starts with `#`; otherwise split
at the first `=` into key and value (`splitn(2, '=')`: a line with no `=`
yields the whole trimmed line as key and an empty value); skip when the key
is empty, else return the key/value pair to insert. -/
def parseLine? (line : String) : Option (String × String) :=
  let t := rustTrim line
  if t.head? = some '#' ∨ t = [] then none
  else
    let key := t.takeWhile (fun c => c != '=')
    let value :=
      if t.any (fun c => c == '=') then (t.dropWhile (fun c => c != '=')).tail
      else []
    if key = [] then none else some (String.mk key, String.mk value)

/-- One iteration of the `parse_desktop_file` loop on a successfully read
line: when the line yields a key/value pair, insert it over any prior value. -/
def processLine (m : List (String × String)) (line : String) :
    List (String × String) :=
  match parseLine? line with
  | none => m
  | some (k, v) => mapInsert m k v

/-- The `parse_desktop_file` loop over the decoded lines of one file. -/
def parseLines (lines : List String) : List (String × String) :=
  lines.foldl processLine []

/-- One iteration of the `parse_desktop_file` loop as written in the source:
`if let Ok(line) = line { ... }` silently skips a line whose read or decode
failed. -/
def processLineResult (m : List (String × String))
    (l : Except IOError String) : List (String × String) :=
  match l with
  | .error _ => m
  | .ok line => processLine m line

/-- Embedding of `parse_desktop_file`. The argument models `read_lines`:
`.error e` is a failure of `File::open` (propagated by `?`); an `.ok`
carries the per-line results of the `lines()` iterator, each either a
decoded line or a per-line I/O or decode error. -/
def parse_desktop_file
    (file : Except IOError (List (Except IOError String))) :
    Except IOError (List (String × String)) :=
  match file with
  | .error e => .error e
  | .ok lines => .ok (lines.foldl processLineResult [])

/-- Rust `Path::extension` on a file name: the portion after the last `.`,
`none` when the name has no `.` or when its only `.` is the leading
character (a hidden file like `.desktop` has no extension). -/
def pathExtension (name : String) : Option String :=
  let cs := name.toList
  let afterDot := (cs.reverse.takeWhile (fun c => c != '.')).reverse
  if afterDot.length = cs.length then none
  else if afterDot.length + 1 = cs.length then none
  else some (String.mk afterDot)

/-- One directory entry as `read_dir` reports it: its file name and the
value of `path.is_file()` (true exactly for regular files, following
symlinks, so a directory or a symlink to a directory reports false). -/
structure DirEntry where
  name : String
  isFile : Bool
deriving DecidableEq, Repr

/-- The state of the scanned path as the filesystem reports it to
`list_desktop_files`: either `dir.is_dir()` is false (the path is missing
or is not a directory), or it is a directory and `read_dir` yields the
given sequence of per-entry results (`entry?` propagates an entry error). -/
inductive DirState where
  | notDir
  | dir (entries : List (Except IOError DirEntry))

/-- The body of the `list_desktop_files` loop folded over the `read_dir`
entries: an entry error aborts with that error; a regular file whose
extension is `desktop` is appended to the accumulated list. -/
def scanStep (acc : Except IOError (List String))
    (e : Except IOError DirEntry) : Except IOError (List String) :=
  match acc, e with
  | .error er, _ => .error er
  | .ok _, .error er => .error er
  | .ok l, .ok ent =>
    if ent.isFile && pathExtension ent.name == some "desktop" then
      .ok (l ++ [ent.name])
    else .ok l

/-- Embedding of `list_desktop_files`: an empty `Ok` result when the path
is not a directory, otherwise the fold of `scanStep` over the entries. -/
def list_desktop_files (d : DirState) : Except IOError (List String) :=
  match d with
  | .notDir => .ok []
  | .dir entries => entries.foldl scanStep (.ok [])

deriving instance DecidableEq for Except

/-- Model of `std::process::Child`: the process id (`u32` in the source)
plus the outcome its next non-blocking status check (`try_wait`) reports:
an error, `none` while the process still runs, or `some code` once it has
exited. -/
structure Child where
  id : Nat
  status : Except IOError (Option Nat)
deriving DecidableEq, Repr

/-- Model of `std::process::Stdio` configuration for a spawned command:
the Rust default for `spawn` is to inherit the parent's handles;
`Stdio::null()` redirects to the null device. -/
inductive Stdio where
  | inherit
  | null
deriving DecidableEq, Repr

/-- The command configuration handed to the operating system by a
`Command::new(..)....spawn()` call chain: program, arguments and the
standard input/output configuration. -/
structure SpawnCmd where
  program : String
  args : List String
  stdin : Stdio
  stdout : Stdio
deriving DecidableEq, Repr

/-- Embedding of `Children`: the `inner` hash map from process id to
handle, as an association list with at most one entry per key. -/
structure Children where
  inner : List (Nat × Child)
deriving DecidableEq, Repr

/-- `Children::new` / `Children::default`: the empty registry. -/
def Children.new : Children := ⟨[]⟩

/-- `Children::len`. -/
def Children.len (c : Children) : Nat := c.inner.length

/-- `Children::insert`: adds the handle keyed by its process id via
`HashMap::insert`, returning `is_none()` of the replaced value, i.e.
whether the id was previously absent. -/
def Children.insert (c : Children) (child : Child) : Children × Bool :=
  (⟨mapInsert c.inner child.id child⟩, (mapLookup c.inner child.id).isNone)

/-- `Children::merge`: `self.inner.extend(reaper.inner)`, i.e. insert every
entry of the other registry into this one, incoming entries overwriting. -/
def Children.merge (c reaper : Children) : Children :=
  ⟨reaper.inner.foldl (fun l p => mapInsert l p.1 p.2) c.inner⟩

/-- The predicate of the `retain` call in `Children::reap`:
`child.try_wait().map_or(true, |ret| ret.is_none())` — keep the handle when
the status check fails or reports the process still running; drop it only
when the check succeeds and reports an exit. -/
def tryWaitKeeps (child : Child) : Bool :=
  match child.status with
  | .error _ => true
  | .ok none => true
  | .ok (some _) => false

/-- `Children::reap`: retain exactly the handles `tryWaitKeeps` keeps. -/
def Children.reap (c : Children) : Children :=
  ⟨c.inner.filter (fun p => tryWaitKeeps p.2)⟩

/-- `FromIterator<Child> for Children`: collect `(child.id(), child)` pairs
into the hash map, later pairs overwriting earlier ones on key collision. -/
def Children.fromList (cs : List Child) : Children :=
  ⟨cs.foldl (fun l child => mapInsert l child.id child) []⟩

/-- Embedding of `boot_desktop_file` up to the spawn call: from the parse
result of one descriptor file, either the skip error (`?` on a failed
parse, the `Hidden == "true"` check, the missing `Exec` check) or the
command configuration `Command::new("sh").arg("-c").arg(args)` that is
spawned — with the default (inherited) standard input and output, since the
source sets no `Stdio` on this command. -/
def boot_desktop_cmd (parsed : Except IOError (List (String × String))) :
    Except IOError SpawnCmd :=
  match parsed with
  | .error e => .error e
  | .ok entries =>
    if mapLookup entries "Hidden" = some "true" then
      .error ⟨.invalidInput, "hidden desktop file"⟩
    else
      match mapLookup entries "Exec" with
      | some exec =>
        .ok ⟨"sh", ["-c", sanitize_exec exec], .inherit, .inherit⟩
      | none => .error ⟨.invalidInput, "could not find Exec key"⟩

/-- The collection step of `Nanny::autostart`: from the per-file
`boot_desktop_file` results, keep the successful spawns
(`filter_map(|file| boot_desktop_file(file).ok())`) and collect them into a
registry. -/
def autostartCollect (boots : List (Except IOError Child)) : Children :=
  Children.fromList (boots.filterMap Except.toOption)

/-- The path `Nanny::autostart` scans: `<home>/.config/autostart`. -/
def autostartDir (home : String) : String :=
  home ++ "/.config/autostart"

/-- The outside world as `Nanny::autostart` observes it: the resolved home
directory (if any), the result of `list_desktop_files` on a path, and the
result of `boot_desktop_file` on a descriptor file path. -/
structure AutostartEnv where
  homeDir : Option String
  listFiles : String → Except IOError (List String)
  bootFile : String → Except IOError Child

/-- Embedding of `Nanny::autostart`: resolve the home directory and push
`.config/autostart`; `and_then` on `list_desktop_files(..).ok()`; collect
the successful `boot_desktop_file` results; `unwrap_or_default()` turns a
missing home directory or a listing failure into the empty registry. -/
def Nanny.autostart (env : AutostartEnv) : Children :=
  match env.homeDir with
  | none => Children.new
  | some home =>
    match env.listFiles (autostartDir home) with
    | .error _ => Children.new
    | .ok files =>
      autostartCollect (files.map env.bootFile)

/-- The fixed script path of `Nanny::boot_current_theme`:
`<config-base>/themes/current/up`. -/
def themeUpPath (base : String) : String :=
  base ++ "/themes/current/up"

/-- The outside world as `Nanny::boot_current_theme` observes it: the
result of creating the base configuration directory, whether the resolved
script path `is_file()`, and the result of spawning a command. -/
structure ThemeEnv where
  configDir : Except IOError String
  upIsFile : Bool
  spawn : SpawnCmd → Except IOError Child

/-- Embedding of `Nanny::boot_current_theme`: `?` propagates a failure to
create the configuration directory; when `themes/current/up` is a regular
file it is spawned directly (no shell, no arguments) with standard input
and output redirected to the null device, a spawn failure propagating and
a success wrapped in `some`; otherwise the result is `Ok(None)`. -/
def Nanny.boot_current_theme (env : ThemeEnv) :
    Except IOError (Option Child) :=
  match env.configDir with
  | .error e => .error e
  | .ok base =>
    if env.upIsFile then
      match env.spawn ⟨themeUpPath base, [], .null, .null⟩ with
      | .ok child => .ok (some child)
      | .error e => .error e
    else .ok none

/-! ## Helper lemmas about the association-map operations -/

theorem optOr_none_right {β : Type v} (o : Option β) : optOr o none = o := by
  cases o <;> rfl

theorem optOr_assoc {β : Type v} (a b c : Option β) :
    optOr (optOr a b) c = optOr a (optOr b c) := by
  cases a <;> rfl

theorem mapLookup_append {α : Type u} {β : Type v} [DecidableEq α]
    (l₁ l₂ : List (α × β)) (k : α) :
    mapLookup (l₁ ++ l₂) k = optOr (mapLookup l₁ k) (mapLookup l₂ k) := by
  induction l₁ with
  | nil => simp [mapLookup, optOr]
  | cons p rest ih =>
    by_cases h : p.1 = k <;> simp [mapLookup, h, ih, optOr]

theorem mapLookup_mapInsert {α : Type u} {β : Type v} [DecidableEq α]
    (l : List (α × β)) (k k' : α) (v : β) :
    mapLookup (mapInsert l k v) k' =
      if k' = k then some v else mapLookup l k' := by
  induction l with
  | nil =>
    by_cases h : k' = k
    · simp [mapInsert, mapLookup, h]
    · have h2 : ¬ k = k' := fun hh => h hh.symm
      simp [mapInsert, mapLookup, h, h2]
  | cons p rest ih =>
    by_cases hp : p.1 = k
    · by_cases hk : k' = k
      · simp [mapInsert, hp, mapLookup, hk]
      · have hpk : ¬ p.1 = k' := by
          rw [hp]; intro hh; exact hk hh.symm
        have hkk : ¬ k = k' := fun hh => hk hh.symm
        simp [mapInsert, hp, mapLookup, hk, hpk, hkk]
    · by_cases hpk : p.1 = k'
      · have hk : ¬ k' = k := fun hh => hp (hpk.trans hh)
        simp [mapInsert, hp, mapLookup, hpk, hk]
      · simp [mapInsert, hp, mapLookup, hpk, ih]

theorem length_mapInsert {α : Type u} {β : Type v} [DecidableEq α]
    (l : List (α × β)) (k : α) (v : β) :
    (mapInsert l k v).length =
      if (mapLookup l k).isSome then l.length else l.length + 1 := by
  induction l with
  | nil => simp [mapInsert, mapLookup]
  | cons p rest ih =>
    by_cases hp : p.1 = k
    · simp [mapInsert, mapLookup, hp, ih]
    · by_cases hs : (mapLookup rest k).isSome = true <;>
        simp [mapInsert, mapLookup, hp, ih, hs]

theorem mapLookup_eq_none_iff {α : Type u} {β : Type v} [DecidableEq α]
    (l : List (α × β)) (k : α) :
    mapLookup l k = none ↔ k ∉ l.map Prod.fst := by
  induction l with
  | nil => simp [mapLookup]
  | cons p rest ih =>
    by_cases hp : p.1 = k
    · simp [mapLookup, hp]
    · have h2 : ¬ k = p.1 := fun hh => hp hh.symm
      simp [mapLookup, hp, ih, h2]

theorem mapLookup_reverse_nodup {α : Type u} {β : Type v} [DecidableEq α]
    (l : List (α × β)) (k : α) (hl : (l.map Prod.fst).Nodup) :
    mapLookup l.reverse k = mapLookup l k := by
  induction l with
  | nil => rfl
  | cons p rest ih =>
    simp only [List.map_cons, List.nodup_cons] at hl
    rw [List.reverse_cons, mapLookup_append, ih hl.2]
    by_cases hp : p.1 = k
    · have hnone : mapLookup rest k = none := by
        rw [mapLookup_eq_none_iff]
        rw [hp] at hl
        exact hl.1
      simp [mapLookup, hp, hnone, optOr]
    · simp [mapLookup, hp, optOr_none_right]

theorem mapLookup_foldl_mapInsert {α : Type u} {β : Type v} [DecidableEq α]
    (ps : List (α × β)) (init : List (α × β)) (k : α) :
    mapLookup (ps.foldl (fun m p => mapInsert m p.1 p.2) init) k =
      optOr (mapLookup ps.reverse k) (mapLookup init k) := by
  induction ps generalizing init with
  | nil => simp [mapLookup, optOr]
  | cons p rest ih =>
    rw [List.foldl_cons, ih, List.reverse_cons, mapLookup_append, optOr_assoc]
    congr 1
    rw [mapLookup_mapInsert]
    by_cases hp : p.1 = k
    · simp [mapLookup, hp, optOr]
    · have hk : ¬ k = p.1 := fun hh => hp hh.symm
      simp [mapLookup, hp, hk, optOr]

/-! ## Helper lemmas about the parser, scanner and sanitizer folds -/

theorem foldl_processLine_eq (lines : List String)
    (m : List (String × String)) :
    lines.foldl processLine m =
      (lines.filterMap parseLine?).foldl (fun mm p => mapInsert mm p.1 p.2) m := by
  induction lines generalizing m with
  | nil => rfl
  | cons line rest ih =>
    rw [List.foldl_cons, List.filterMap_cons]
    cases h : parseLine? line with
    | none => rw [ih]; simp [processLine, h]
    | some kv => rw [ih]; simp [processLine, h]

theorem foldl_processLineResult_eq (lines : List (Except IOError String))
    (m : List (String × String)) :
    lines.foldl processLineResult m =
      (lines.filterMap Except.toOption).foldl processLine m := by
  induction lines generalizing m with
  | nil => rfl
  | cons l rest ih =>
    cases l with
    | error e => simp [processLineResult, Except.toOption, ih]
    | ok line => simp [processLineResult, Except.toOption, ih]

theorem scan_foldl_ok (entries : List DirEntry) (l : List String) :
    (entries.map Except.ok).foldl scanStep (.ok l) =
      .ok (l ++ (entries.filter
        (fun e => e.isFile && pathExtension e.name == some "desktop")).map
          DirEntry.name) := by
  induction entries generalizing l with
  | nil => simp
  | cons e rest ih =>
    by_cases he : (e.isFile && pathExtension e.name == some "desktop") = true
    · simp [scanStep, he, ih, List.filter_cons]
    · simp [scanStep, he, ih, List.filter_cons]

theorem sedRemoveFirstFieldCode_append (a : List Char) (c : Char)
    (b : List Char) (h : '%' ∉ a) :
    sedRemoveFirstFieldCode (a ++ '%' :: c :: b) = a ++ b := by
  induction a with
  | nil => simp [sedRemoveFirstFieldCode]
  | cons x a' ih =>
    have hx : ¬ x = '%' := by
      intro hh
      exact h (by rw [hh]; exact List.mem_cons_self _ _)
    have h' : '%' ∉ a' := fun hm => h (List.mem_cons_of_mem _ hm)
    simp [sedRemoveFirstFieldCode, hx, ih h']

theorem echoQuoteRemoval_no_quote (s : List Char) :
    '"' ∉ echoQuoteRemoval s := by
  intro hmem
  simp [echoQuoteRemoval, List.mem_filter] at hmem

theorem tryWaitKeeps_iff (idv : Nat) (st : Except IOError (Option Nat)) :
    tryWaitKeeps ⟨idv, st⟩ = true ↔ ∀ code : Nat, st ≠ .ok (some code) := by
  cases st with
  | error e => simp [tryWaitKeeps]
  | ok o =>
    cases o with
    | none => simp [tryWaitKeeps]
    | some code =>
      simp only [tryWaitKeeps]
      constructor
      · intro h; exact Bool.noConfusion h
      · intro h; exact absurd rfl (h code)

/-! ## Claim theorems -/

/-- Claim C1, counterexample: the `sed` substitution in the command built by
`sanitize_exec` carries no `g` flag, so only the first two-character
`%`-sequence is removed. On the spec's own example `firefox %U "%f"` the
executed pipeline yields `firefox  %f`: the `%f` placeholder survives, so
the sanitized command does not remove every `%`-sequence. -/
theorem c1_sanitize_counterexample :
    sanitize_exec "firefox %U \"%f\"" =
      "`echo \"firefox %U \"%f\"\" | sed 's/%.//' | sed 's/^\\\"//g' | sed 's/\\\" *$//g'`"
    ∧ effectiveSanitize "firefox %U \"%f\"" = "firefox  %f"
    ∧ '%' ∈ (effectiveSanitize "firefox %U \"%f\"").toList := by
  refine ⟨rfl, rfl, ?_⟩
  decide

/-- Claim C1, amended: the pipeline built by `sanitize_exec` removes only
the FIRST two-character sequence starting with `%` (the `sed` substitution
is not global, so later field codes remain); double-quote characters of the
raw value are consumed by the shell's quote processing of the echoed word
(so no quote characters remain), and the remaining `sed` stages strip a
leading quote and a trailing quote-plus-spaces if still present. Sanitizing
`firefox %U "%f"` yields `firefox  %f`: it contains `firefox`, has no
quote characters and no `%U`, but still contains the `%f` placeholder. -/
theorem c1_sanitize_amended (a : List Char) (c : Char) (b : List Char)
    (h : '%' ∉ a) :
    sedRemoveFirstFieldCode (a ++ '%' :: c :: b) = a ++ b
    ∧ (∀ s : List Char, '"' ∉ echoQuoteRemoval s)
    ∧ effectiveSanitize "firefox %U \"%f\"" = "firefox  %f" :=
  ⟨sedRemoveFirstFieldCode_append a c b h, echoQuoteRemoval_no_quote, rfl⟩

theorem c1_sanitize_amended_witness :
    sedRemoveFirstFieldCode (['l', 's', ' '] ++ '%' :: 'U' :: [' ', 'x']) =
      ['l', 's', ' '] ++ [' ', 'x'] :=
  (c1_sanitize_amended ['l', 's', ' '] 'U' [' ', 'x'] (by decide)).1

/-- Claim C2, counterexample: for a descriptor whose entry map has an
`Exec` key, `boot_desktop_file` builds `Command::new("sh").arg("-c")` with
the sanitized string but sets no `Stdio` configuration, so the spawned
shell inherits standard input and output — they are not redirected to the
null device as the claim states. -/
theorem c2_boot_stdio_counterexample :
    boot_desktop_cmd (.ok [("Exec", "vlc")]) =
      .ok ⟨"sh", ["-c", sanitize_exec "vlc"], Stdio.inherit, Stdio.inherit⟩
    ∧ Stdio.inherit ≠ Stdio.null :=
  ⟨rfl, by decide⟩

/-- Claim C2, amended: if parsing fails, or the entry map maps `Hidden` to
the literal string `true`, or the entry map lacks an `Exec` key, the file
is skipped without aborting the batch; otherwise the `Exec` value is
sanitized and a shell process executing the sanitized string is spawned
with standard input and standard output both INHERITED from the parent
(the source sets no null redirection on this command). -/
theorem c2_boot_amended :
    (∀ e : IOError, boot_desktop_cmd (.error e) = .error e)
    ∧ (∀ entries : List (String × String),
        mapLookup entries "Hidden" = some "true" →
        boot_desktop_cmd (.ok entries) =
          .error ⟨.invalidInput, "hidden desktop file"⟩)
    ∧ (∀ entries : List (String × String),
        mapLookup entries "Hidden" ≠ some "true" →
        mapLookup entries "Exec" = none →
        boot_desktop_cmd (.ok entries) =
          .error ⟨.invalidInput, "could not find Exec key"⟩)
    ∧ (∀ (entries : List (String × String)) (exec : String),
        mapLookup entries "Hidden" ≠ some "true" →
        mapLookup entries "Exec" = some exec →
        boot_desktop_cmd (.ok entries) =
          .ok ⟨"sh", ["-c", sanitize_exec exec], Stdio.inherit, Stdio.inherit⟩)
    ∧ (∀ (boots1 boots2 : List (Except IOError Child)) (e : IOError),
        autostartCollect (boots1 ++ .error e :: boots2) =
          autostartCollect (boots1 ++ boots2)) := by
  refine ⟨fun e => rfl, ?_, ?_, ?_, ?_⟩
  · intro entries hh
    simp [boot_desktop_cmd, hh]
  · intro entries hh he
    simp [boot_desktop_cmd, hh, he]
  · intro entries exec hh he
    simp [boot_desktop_cmd, hh, he]
  · intro boots1 boots2 e
    simp [autostartCollect, List.filterMap_append, List.filterMap_cons,
      Except.toOption]

theorem c2_boot_amended_witness :
    boot_desktop_cmd (.ok [("Hidden", "true"), ("Exec", "vlc")]) =
      .error ⟨.invalidInput, "hidden desktop file"⟩ :=
  c2_boot_amended.2.1 [("Hidden", "true"), ("Exec", "vlc")] rfl

/-- Claim C3, counterexample: a per-line read or decode failure does NOT
make `parse_desktop_file` return a read failure for the whole file — the
loop's `if let Ok(line) = line` silently skips the failed line and an entry
map holding the other lines' entries is still returned. -/
theorem c3_parse_counterexample :
    parse_desktop_file
        (.ok [.ok "A=1",
              .error ⟨.invalidData, "stream did not contain valid UTF-8"⟩,
              .ok "B=2"]) =
      .ok [("A", "1"), ("B", "2")] := rfl

/-- Claim C3, amended: only a failure to OPEN the file propagates as a
read failure (a per-file error); a line that cannot be decoded as valid
text, or whose read fails, is silently skipped, and the entry map of the
remaining lines is returned. -/
theorem c3_parse_amended (e : IOError)
    (pre post : List (Except IOError String)) :
    parse_desktop_file (.error e) = .error e
    ∧ parse_desktop_file (.ok (pre ++ .error e :: post)) =
        parse_desktop_file (.ok (pre ++ post))
    ∧ (∀ lines : List (Except IOError String),
        parse_desktop_file (.ok lines) =
          .ok (parseLines (lines.filterMap Except.toOption))) := by
  refine ⟨rfl, ?_, ?_⟩
  · simp [parse_desktop_file, foldl_processLineResult_eq,
      List.filterMap_append, List.filterMap_cons, Except.toOption, parseLines,
      processLineResult]
  · intro lines
    simp [parse_desktop_file, foldl_processLineResult_eq, parseLines]

/-- Claim C4: `reap()` removes a tracked handle if and only if its
non-blocking status check succeeds and reports that the process has exited
(`try_wait` returned `Ok(Some(_))`); a handle whose check fails, or whose
process still runs, is retained, and every other entry is left untouched. -/
theorem c4_reap_spec (c : Children) (k : Nat) (ch : Child) :
    (k, ch) ∈ (Children.reap c).inner ↔
      (k, ch) ∈ c.inner ∧ ∀ code : Nat, ch.status ≠ .ok (some code) := by
  show (k, ch) ∈ c.inner.filter (fun p => tryWaitKeeps p.2) ↔ _
  rw [List.mem_filter]
  obtain ⟨idv, st⟩ := ch
  rw [tryWaitKeeps_iff]

/-- Claim C5: `insert(handle)` returns true if and only if the handle's
process id was previously absent from the registry; when the id is already
present, the existing entry is overwritten by the new handle, false is
returned, and the registry's length stays unchanged. -/
theorem c5_insert_spec (c : Children) (ch : Child) :
    ((c.insert ch).2 = true ↔ mapLookup c.inner ch.id = none)
    ∧ (∀ old : Child, mapLookup c.inner ch.id = some old →
        (c.insert ch).2 = false
        ∧ (c.insert ch).1.len = c.len
        ∧ mapLookup (c.insert ch).1.inner ch.id = some ch) := by
  constructor
  · simp [Children.insert, Option.isNone_iff_eq_none]
  · intro old hold
    refine ⟨?_, ?_, ?_⟩
    · simp [Children.insert, hold]
    · simp [Children.len, Children.insert, length_mapInsert, hold]
    · simp [Children.insert, mapLookup_mapInsert]

theorem c5_insert_witness :
    ((Children.mk [(7, ⟨7, .ok none⟩)]).insert ⟨7, .ok (some 0)⟩).2 = false
    ∧ ((Children.mk [(7, ⟨7, .ok none⟩)]).insert ⟨7, .ok (some 0)⟩).1.len =
        (Children.mk [(7, ⟨7, .ok none⟩)]).len
    ∧ mapLookup
        ((Children.mk [(7, ⟨7, .ok none⟩)]).insert ⟨7, .ok (some 0)⟩).1.inner
        (Child.mk 7 (.ok (some 0))).id = some ⟨7, .ok (some 0)⟩ :=
  (c5_insert_spec (Children.mk [(7, ⟨7, .ok none⟩)]) ⟨7, .ok (some 0)⟩).2
    ⟨7, .ok none⟩ rfl

/-- Claim C6: the Descriptor Parser trims each line, produces no entry for
empty or `#` lines, splits every other line at the first `=` (a line with
no `=` yields the whole trimmed line as key and an empty value), never
inserts an empty key, and a key appearing twice maps to its last
occurrence: looking a key up in the parsed map equals looking it up in the
reversed list of per-line key/value pairs. -/
theorem c6_parse_lines_spec (lines : List String) (k : String) :
    mapLookup (parseLines lines) k =
      mapLookup (lines.filterMap parseLine?).reverse k
    ∧ (∀ line : String,
        rustTrim line = [] ∨ (rustTrim line).head? = some '#' →
        parseLine? line = none)
    ∧ (∀ line : String, (rustTrim line).head? ≠ some '#' →
        rustTrim line ≠ [] → '=' ∉ rustTrim line →
        parseLine? line = some (String.mk (rustTrim line), ""))
    ∧ (∀ (line : String) (kv : String × String),
        parseLine? line = some kv → kv.1 ≠ "") := by
  refine ⟨?_, ?_, ?_, ?_⟩
  · rw [parseLines, foldl_processLine_eq, mapLookup_foldl_mapInsert]
    exact optOr_none_right _
  · intro line h
    rcases h with h | h <;> simp [parseLine?, h]
  · intro line h1 h2 h3
    have htake : (rustTrim line).takeWhile (fun c => c != '=') = rustTrim line := by
      rw [List.takeWhile_eq_self_iff]
      intro a ha
      simp only [bne_iff_ne, ne_eq]
      intro hh
      rw [hh] at ha
      exact h3 ha
    have hany : (rustTrim line).any (fun c => c == '=') = false := by
      rw [List.any_eq_false]
      intro a ha
      simp only [beq_iff_eq]
      intro hh
      rw [hh] at ha
      exact h3 ha
    simp [parseLine?, h1, h2, htake, hany]
  · intro line kv h
    simp only [parseLine?] at h
    split at h
    · exact absurd h (by simp)
    · split at h
      · exact absurd h (by simp)
      · rename_i hkey
        have hkv : kv.1 = String.mk ((rustTrim line).takeWhile (fun c => c != '=')) := by
          have := (Option.some.injEq _ _).mp h.symm
          rw [this]
        rw [hkv]
        intro he
        exact hkey (congrArg String.data he)

theorem c6_parse_lines_witness :
    mapLookup (parseLines ["Name=A", "Name=B"]) "Name" =
      mapLookup ((["Name=A", "Name=B"]).filterMap parseLine?).reverse "Name"
    ∧ parseLine? " # note" = none :=
  ⟨(c6_parse_lines_spec ["Name=A", "Name=B"] "Name").1,
   (c6_parse_lines_spec ["Name=A", "Name=B"] "Name").2.1 " # note"
     (Or.inr (by decide))⟩

/-- Claim C7: the Directory Scanner returns exactly the regular files
directly inside the directory whose extension is `desktop`; a non-existent
or non-directory path yields an empty `Ok` result; entries that are not
regular files (directories, symlinks to directories) or lack the extension
are excluded, and only the direct entries are examined. -/
theorem c7_list_desktop_files_spec (entries : List DirEntry) :
    list_desktop_files .notDir = .ok []
    ∧ list_desktop_files (.dir (entries.map Except.ok)) =
        .ok ((entries.filter
          (fun e => e.isFile && pathExtension e.name == some "desktop")).map
            DirEntry.name)
    ∧ list_desktop_files (.dir [.ok ⟨"a.desktop", true⟩, .ok ⟨"b.txt", true⟩,
        .ok ⟨"c.desktop", false⟩]) = .ok ["a.desktop"] := by
  refine ⟨rfl, ?_, rfl⟩
  show (entries.map Except.ok).foldl scanStep (.ok []) = _
  rw [scan_foldl_ok]
  simp

/-- Claim C8: `merge(other)` makes the receiver the last-write-wins union:
afterwards every process id present in `other` maps to `other`'s handle,
every id present only in the receiver keeps its original handle, and no
other id is present — looking up any id in the merged registry gives
`other`'s entry first, then the receiver's. -/
theorem c8_merge_spec (a b : Children) (k : Nat)
    (hb : (b.inner.map Prod.fst).Nodup) :
    mapLookup (a.merge b).inner k =
      optOr (mapLookup b.inner k) (mapLookup a.inner k) := by
  show mapLookup (b.inner.foldl (fun l p => mapInsert l p.1 p.2) a.inner) k = _
  rw [mapLookup_foldl_mapInsert, mapLookup_reverse_nodup _ _ hb]

theorem c8_merge_witness :
    mapLookup ((Children.mk [(1, ⟨1, .ok none⟩)]).merge
        (Children.mk [(1, ⟨1, .error ⟨.other, "gone"⟩⟩),
                      (2, ⟨2, .ok none⟩)])).inner 1 =
      optOr
        (mapLookup [(1, ⟨1, .error ⟨.other, "gone"⟩⟩), (2, ⟨2, .ok none⟩)] 1)
        (mapLookup [(1, (⟨1, .ok none⟩ : Child))] 1) :=
  c8_merge_spec (Children.mk [(1, ⟨1, .ok none⟩)])
    (Children.mk [(1, ⟨1, .error ⟨.other, "gone"⟩⟩), (2, ⟨2, .ok none⟩)]) 1
    (by decide)

/-- Claim C9: the Theme Launcher returns an explicit empty result (not an
error) when `<config-base>/themes/current/up` is not a regular file;
a failure to create the base configuration directory propagates as an
error, a spawn failure propagates as an error, and a successful spawn
returns the resulting handle. -/
theorem c9_boot_current_theme_spec (env : ThemeEnv) (base : String)
    (e : IOError) (child : Child) :
    (env.configDir = .error e → Nanny.boot_current_theme env = .error e)
    ∧ (env.configDir = .ok base → env.upIsFile = false →
        Nanny.boot_current_theme env = .ok none)
    ∧ (env.configDir = .ok base → env.upIsFile = true →
        env.spawn ⟨themeUpPath base, [], .null, .null⟩ = .ok child →
        Nanny.boot_current_theme env = .ok (some child))
    ∧ (env.configDir = .ok base → env.upIsFile = true →
        env.spawn ⟨themeUpPath base, [], .null, .null⟩ = .error e →
        Nanny.boot_current_theme env = .error e) := by
  refine ⟨?_, ?_, ?_, ?_⟩
  · intro h1
    simp [Nanny.boot_current_theme, h1]
  · intro h1 h2
    simp [Nanny.boot_current_theme, h1, h2]
  · intro h1 h2 h3
    simp [Nanny.boot_current_theme, h1, h2, h3]
  · intro h1 h2 h3
    simp [Nanny.boot_current_theme, h1, h2, h3]

theorem c9_boot_current_theme_witness :
    Nanny.boot_current_theme
        ⟨.ok "/cfg", false, fun _ => .error ⟨.other, "no spawn"⟩⟩ =
      .ok none :=
  (c9_boot_current_theme_spec
    ⟨.ok "/cfg", false, fun _ => .error ⟨.other, "no spawn"⟩⟩
    "/cfg" ⟨.other, "no spawn"⟩ ⟨0, .ok none⟩).2.1 rfl rfl

/-- Claim C10: `autostart` never returns an error: an unresolvable home
directory or a failed directory listing silently yields the empty registry,
every per-file failure is discarded from the batch, and a caller cannot
distinguish an unreadable directory from an empty one. -/
theorem c10_autostart_spec (lf : String → Except IOError (List String))
    (bf : String → Except IOError Child) (home : String) (e : IOError)
    (files : List String) :
    Nanny.autostart ⟨none, lf, bf⟩ = Children.new
    ∧ (lf (autostartDir home) = .error e →
        Nanny.autostart ⟨some home, lf, bf⟩ = Children.new)
    ∧ (lf (autostartDir home) = .ok files →
        Nanny.autostart ⟨some home, lf, bf⟩ =
          autostartCollect (files.map bf))
    ∧ Nanny.autostart ⟨some home, fun _ => .error e, bf⟩ =
        Nanny.autostart ⟨some home, fun _ => .ok [], bf⟩
    ∧ (∀ (boots1 boots2 : List (Except IOError Child)) (e2 : IOError),
        autostartCollect (boots1 ++ .error e2 :: boots2) =
          autostartCollect (boots1 ++ boots2)) := by
  refine ⟨rfl, ?_, ?_, rfl, ?_⟩
  · intro h
    simp [Nanny.autostart, h]
  · intro h
    simp [Nanny.autostart, h]
  · intro boots1 boots2 e2
    simp [autostartCollect, List.filterMap_append, List.filterMap_cons,
      Except.toOption]

theorem c10_autostart_witness :
    Nanny.autostart ⟨some "/home/u",
        fun _ => .error ⟨.permissionDenied, "denied"⟩,
        fun _ => .error ⟨.other, "x"⟩⟩ = Children.new :=
  (c10_autostart_spec (fun _ => .error ⟨.permissionDenied, "denied"⟩)
    (fun _ => .error ⟨.other, "x"⟩) "/home/u"
    ⟨.permissionDenied, "denied"⟩ []).2.1 rfl
